import Mathlib

/-!
Shallow embedding of the ZagrebTransit integration core
(`custom_components/zagreb_transit/`): the GTFS in-memory index
(`gtfs_index.py`), the feed store / version selector (`gtfs_store.py`)
and the realtime delay client (`realtime.py`).

Modelling conventions:
* Python `str` is `String`; a Python value that may be `None` is `Option _`.
* Python `dict` (insertion ordered) is an association list; `dict.get` is
  `alget` (first match), assignment is `alset` (update in place or append),
  `defaultdict(list)` append is `alappend`.
* `datetime.date` is a `(year, month, day)` triple of naturals; Python
  compares dates lexicographically on that triple, which we mirror.
* `datetime.datetime` values are absolute integer seconds
  (`toOrdinal day * 86400 + seconds`); GTFS times past 24:00:00 and
  additive delays then behave exactly as Python datetime arithmetic.
  Python's datetime range limits (years 1..9999, `OverflowError` outside)
  are not modelled: arithmetic is unbounded.
* Sorting by an ISO-8601 timestamp string (fixed-width for years
  1..9999) is order-isomorphic to sorting by the integer timestamp, so
  sort keys are the integer timestamps.
* Python's `int()` accepts an optional sign and decimal digits after
  stripping whitespace; underscore digit separators and non-ASCII
  digits are not modelled.
* Floating-point display rounding (`round(delay/60, 1)`) is not
  modelled; records carry the exact integer delay seconds instead.
-/

namespace ZagrebTransit

/-! ### Python-style primitive helpers -/

/-- Python truthiness for `str | None`: `None` and `""` are falsy. -/
def truthy : Option String → Option String
  | none => none
  | some s => if s = "" then none else some s

/-- `value or default` for a `str | None` value. -/
def truthyD (o : Option String) (d : String) : String := (truthy o).getD d

/-- Digits of a decimal string to a natural number. -/
def digitsToNat (cs : List Char) : Nat :=
  cs.foldl (fun n c => n * 10 + (c.toNat - '0'.toNat)) 0

/-- Python `str.strip()`: drop whitespace from both ends.
(Equivalent to `String.trim`, stated over the character list so that
it evaluates inside the kernel.) -/
def pyStrip (s : String) : String :=
  String.mk (((s.toList.dropWhile Char.isWhitespace).reverse.dropWhile
    Char.isWhitespace).reverse)

/-- Python `str.split(sep)` for a one-character separator, on the
character list (same semantics as `String.splitOn` for this use). -/
def splitOnCharGo (c : Char) : List Char → List Char → List String
  | [], acc => [String.mk acc.reverse]
  | x :: xs, acc =>
    if x = c then String.mk acc.reverse :: splitOnCharGo c xs []
    else splitOnCharGo c xs (x :: acc)

/-- Split a string on a separator character. -/
def splitOnChar (s : String) (c : Char) : List String :=
  splitOnCharGo c s.toList []

/-- Python `int(s)`: strip whitespace, optional sign, decimal digits. -/
def pyInt? (s : String) : Option Int :=
  match (pyStrip s).toList with
  | [] => none
  | '+' :: rest =>
    if rest ≠ [] ∧ rest.all Char.isDigit then some (digitsToNat rest) else none
  | '-' :: rest =>
    if rest ≠ [] ∧ rest.all Char.isDigit then some (-(digitsToNat rest : Int)) else none
  | cs =>
    if cs.all Char.isDigit then some (digitsToNat cs) else none

/-- Python `str.isdigit()` (ASCII model): nonempty and all digits. -/
def isPyDigits (s : String) : Bool :=
  s ≠ "" ∧ s.toList.all Char.isDigit

/-- `str.strip(chars)`: drop characters in `chars` from both ends. -/
def stripChars (s : String) (chars : List Char) : String :=
  let l := (s.toList.dropWhile (· ∈ chars)).reverse
  String.mk ((l.dropWhile (· ∈ chars)).reverse)

/-- Association list `get` (Python `dict.get`): first matching key. -/
def alget {κ α : Type} [BEq κ] (l : List (κ × α)) (k : κ) : Option α :=
  (l.find? (fun p => p.1 == k)).map (·.2)

/-- Association list assignment (Python `dict[k] = v`): replace in
place if the key exists, else append. -/
def alset {κ α : Type} [BEq κ] : List (κ × α) → κ → α → List (κ × α)
  | [], k, v => [(k, v)]
  | (k', v') :: rest, k, v =>
    if k' == k then (k', v) :: rest else (k', v') :: alset rest k v

/-- `defaultdict(list)` append (Python `d[k].append(x)`). -/
def alappend {κ α : Type} [BEq κ] : List (κ × List α) → κ → α → List (κ × List α)
  | [], k, x => [(k, [x])]
  | (k', xs) :: rest, k, x =>
    if k' == k then (k', xs ++ [x]) :: rest else (k', xs) :: alappend rest k x

/-! ### Dates (`datetime.date`) -/

/-- A Python `datetime.date`: proleptic Gregorian year/month/day. -/
structure Date where
  year : Nat
  month : Nat
  day : Nat
deriving DecidableEq

/-- Gregorian leap year rule. -/
def isLeap (y : Nat) : Bool := y % 4 == 0 && (y % 100 != 0 || y % 400 == 0)

/-- Days in a month of a given year. -/
def daysInMonth (y m : Nat) : Nat :=
  if m = 2 then (if isLeap y then 29 else 28)
  else if m = 4 ∨ m = 6 ∨ m = 9 ∨ m = 11 then 30
  else 31

/-- Days in the months of year `y` strictly before month `m`. -/
def daysBeforeMonth (y m : Nat) : Nat :=
  (List.range m).foldl (fun acc i => if 1 ≤ i then acc + daysInMonth y i else acc) 0

/-- `date.toordinal()`: day number with 0001-01-01 as day 1. -/
def Date.toOrdinal (d : Date) : Nat :=
  (d.year - 1) * 365 + (d.year - 1) / 4 - (d.year - 1) / 100 + (d.year - 1) / 400
    + daysBeforeMonth d.year d.month + d.day

/-- `date.weekday()`: Monday = 0. 0001-01-01 (ordinal 1) is a Monday. -/
def Date.weekdayIdx (d : Date) : Nat := (d.toOrdinal - 1) % 7

/-- Python date comparison: lexicographic on (year, month, day). -/
def Date.lt (a b : Date) : Prop :=
  a.year < b.year ∨ (a.year = b.year ∧
    (a.month < b.month ∨ (a.month = b.month ∧ a.day < b.day)))

instance : DecidableRel Date.lt := fun a b => by
  unfold Date.lt; infer_instance

/-- Non-strict Python date comparison. -/
def Date.le (a b : Date) : Prop := Date.lt a b ∨ a = b

instance : DecidableRel Date.le := fun a b => by
  unfold Date.le; infer_instance

/-- `day + timedelta(days=1)` for a valid date. -/
def Date.succ (d : Date) : Date :=
  if d.day < daysInMonth d.year d.month then ⟨d.year, d.month, d.day + 1⟩
  else if d.month < 12 then ⟨d.year, d.month + 1, 1⟩
  else ⟨d.year + 1, 1, 1⟩

/-- `day - timedelta(days=1)` for a valid date. -/
def Date.pred (d : Date) : Date :=
  if 1 < d.day then ⟨d.year, d.month, d.day - 1⟩
  else if 1 < d.month then ⟨d.year, d.month - 1, daysInMonth d.year (d.month - 1)⟩
  else ⟨d.year - 1, 12, 31⟩

/-- Left-pad a decimal rendering with zeros to width `w`. -/
def padNat (n w : Nat) : String :=
  let s := Nat.repr n
  String.mk (List.replicate (w - s.length) '0') ++ s

/-- `day.strftime("%Y%m%d")`. -/
def Date.strftimeYmd (d : Date) : String :=
  padNat d.year 4 ++ padNat d.month 2 ++ padNat d.day 2

/-- Parse exactly `w` decimal digit characters to a number. -/
def digitField? (cs : List Char) : Option Nat :=
  if cs ≠ [] ∧ cs.all Char.isDigit then some (digitsToNat cs) else none

/-- `gtfs_index._yyyymmdd_to_date` / `gtfs_store._parse_date`:
`datetime.strptime(value, "%Y%m%d").date()` guarded to `None` on any
failure; requires length 8 and a valid Gregorian date in years 1..9999. -/
def yyyymmddToDate (value : Option String) : Option Date :=
  match truthy value with
  | none => none
  | some s =>
    if s.length ≠ 8 then none
    else
      let cs := s.toList
      match digitField? (cs.take 4), digitField? ((cs.drop 4).take 2),
            digitField? (cs.drop 6) with
      | some y, some m, some d =>
        if 1 ≤ y ∧ y ≤ 9999 ∧ 1 ≤ m ∧ m ≤ 12 ∧ 1 ≤ d ∧ d ≤ daysInMonth y m
        then some ⟨y, m, d⟩ else none
      | _, _, _ => none

/-! ### Route mode classification (`gtfs_index._route_mode`) -/

/-- `_route_mode`: map a GTFS/TPEG route_type code to "tram"/"bus"/"other". -/
def routeMode (route_type : Option Int) : String :=
  match route_type with
  | none => "other"
  | some t =>
    if t = 0 ∨ (900 ≤ t ∧ t ≤ 906) then "tram"
    else if t = 3 ∨ t = 11 ∨ (700 ≤ t ∧ t ≤ 716) ∨ t = 800 then "bus"
    else "other"

/-! ### GTFS index state (`gtfs_index.GtfsIndex`) -/

/-- One row of `GtfsIndex.trips[trip_id]`: always stores exactly the
keys `route_id`, `service_id`, `trip_headsign` (see `_load`). -/
structure TripInfo where
  route_id : String
  service_id : String
  trip_headsign : String
deriving DecidableEq

/-- A `calendar.txt` row as the raw CSV dict: the fields `_load` and
`_active_services_for_day` read, each possibly absent. -/
structure CalRow where
  start_date : Option String
  end_date : Option String
  monday : Option String
  tuesday : Option String
  wednesday : Option String
  thursday : Option String
  friday : Option String
  saturday : Option String
  sunday : Option String
deriving DecidableEq

/-- `row.get(weekday_name)` on a calendar row. -/
def CalRow.getDay (r : CalRow) (name : String) : Option String :=
  if name = "monday" then r.monday
  else if name = "tuesday" then r.tuesday
  else if name = "wednesday" then r.wednesday
  else if name = "thursday" then r.thursday
  else if name = "friday" then r.friday
  else if name = "saturday" then r.saturday
  else if name = "sunday" then r.sunday
  else none

/-- `WEEKDAY_MAP`: weekday index (Monday = 0) to calendar column name. -/
def weekdayMap (i : Nat) : String :=
  if i = 0 then "monday"
  else if i = 1 then "tuesday"
  else if i = 2 then "wednesday"
  else if i = 3 then "thursday"
  else if i = 4 then "friday"
  else if i = 5 then "saturday"
  else if i = 6 then "sunday"
  else ""

/-- A `stop_times.txt` entry (`gtfs_index.StopTime`). -/
structure StopTime where
  stop_id : String
  stop_sequence : Int
  departure_secs : Int
  arrival_secs : Int
deriving DecidableEq

/-- The mutable `GtfsIndex` state: all lookup tables plus the
per-day active-services memoization cache. -/
structure GtfsIndex where
  routes : List (String × String)
  route_types : List (String × Int)
  route_label_to_id : List (String × String)
  stops : List (String × String)
  stop_label_to_id : List (String × String)
  trips : List (String × TripInfo)
  stop_times_by_trip : List (String × List StopTime)
  trips_by_route : List (String × List String)
  departures_by_stop : List (String × List (String × Int))
  calendar : List (String × CalRow)
  calendar_dates : List (String × List (String × String))
  active_services_cache : List (Date × Finset String)
deriving DecidableEq

/-- Replace only the `active_services_cache` field. -/
def GtfsIndex.withCache (st : GtfsIndex) (c : List (Date × Finset String)) : GtfsIndex :=
  ⟨st.routes, st.route_types, st.route_label_to_id, st.stops, st.stop_label_to_id,
    st.trips, st.stop_times_by_trip, st.trips_by_route, st.departures_by_stop,
    st.calendar, st.calendar_dates, c⟩

/-! ### Service-day resolution (`GtfsIndex._active_services_for_day`) -/

/-- The uncached computation inside `_active_services_for_day`: weekly
pattern with date range, then `calendar_dates` exceptions in file order. -/
def computeActiveServices (calendar : List (String × CalRow))
    (calendar_dates : List (String × List (String × String))) (day : Date) :
    Finset String :=
  let weekday := weekdayMap day.weekdayIdx
  let base := calendar.foldl (fun acc p =>
    let start := yyyymmddToDate p.2.start_date
    let stop := yyyymmddToDate p.2.end_date
    if (match start with | some s => decide (Date.lt day s) | none => false) then acc
    else if (match stop with | some e => decide (Date.lt e day) | none => false) then acc
    else if p.2.getDay weekday = some "1" then insert p.1 acc else acc) ∅
  let dateKey := day.strftimeYmd
  ((alget calendar_dates dateKey).getD []).foldl (fun acc p =>
    if p.2 = "1" then insert p.1 acc
    else if p.2 = "2" then acc.erase p.1 else acc) base

/-- The cache eviction step: when more than 8 entries, keep the 8
largest dates (`sorted(keys)[-8:]`) with their cached values. -/
def evictCache (cache : List (Date × Finset String)) : List (Date × Finset String) :=
  if cache.length > 8 then
    let sortedKeys := List.insertionSort Date.le (cache.map (·.1))
    let newest := sortedKeys.drop (sortedKeys.length - 8)
    newest.map (fun k => (k, (alget cache k).getD ∅))
  else cache

/-- `GtfsIndex._active_services_for_day`: memoized active-service set
for a date; returns the set and the updated index state. -/
def GtfsIndex.activeServicesForDay (st : GtfsIndex) (day : Date) :
    Finset String × GtfsIndex :=
  match st.active_services_cache.find? (fun p => p.1 == day) with
  | some p => (p.2, st)
  | none =>
    let services := computeActiveServices st.calendar st.calendar_dates day
    let cache1 := st.active_services_cache ++ [(day, services)]
    (services, st.withCache (evictCache cache1))

/-- Thread `_active_services_for_day` over a list of dates, as the dict
comprehension `{d: self._active_services_for_day(d) for d in service_dates}`. -/
def GtfsIndex.activeForDays (st : GtfsIndex) (days : List Date) :
    List (Date × Finset String) × GtfsIndex :=
  days.foldl (fun acc d =>
    let r := acc.2.activeServicesForDay d
    (acc.1 ++ [(d, r.1)], r.2)) ([], st)

/-- `GtfsIndex._time_for_service_day`: midnight of the service day plus
the raw GTFS seconds value, as absolute seconds. -/
def timeForServiceDay (day : Date) (value_secs : Int) : Int :=
  (day.toOrdinal : Int) * 86400 + value_secs

/-- A caller-supplied `now_local` datetime: a date plus in-day seconds. -/
structure LocalTime where
  date : Date
  secs : Nat
deriving DecidableEq

/-- Absolute seconds of a local datetime. -/
def LocalTime.abs (t : LocalTime) : Int := timeForServiceDay t.date t.secs

/-! ### Station direction board (`GtfsIndex.station_direction_board`) -/

/-- One record of the station board (`delay_seconds` is the exact
integer behind the displayed `delay_minutes`). -/
structure BoardEntry where
  trip_id : String
  route : String
  direction : String
  mode : String
  planned : Int
  rt : Int
  delay_seconds : Int
deriving DecidableEq

/-- Sort key order for board entries: realtime time ascending. -/
def boardLe (a b : BoardEntry) : Prop := a.rt ≤ b.rt

instance : DecidableRel boardLe := fun a b => Int.decLe a.rt b.rt

instance : IsTotal BoardEntry boardLe := ⟨fun a b => Int.le_total a.rt b.rt⟩

instance : IsTrans BoardEntry boardLe := ⟨fun _ _ _ => Int.le_trans⟩

/-- The board entries contributed by one `(trip_id, dep_secs)` pair of
`departures_by_stop[stop_id]`, over the given active service days. -/
def boardEntriesFor (st : GtfsIndex) (nowAbs windowEnd : Int)
    (direction_label board_route_label : String)
    (delay_by_trip : List (String × Int))
    (active : List (Date × Finset String)) (dep : String × Int) :
    List BoardEntry :=
  match alget st.trips dep.1 with
  | none => []
  | some trip =>
    if trip.service_id = "" then []
    else
      let headsign := if trip.trip_headsign = "" then "Unknown" else trip.trip_headsign
      if direction_label ≠ "" ∧ direction_label ≠ "All" ∧ headsign ≠ direction_label then []
      else
        active.filterMap (fun ds =>
          if trip.service_id ∈ ds.2 then
            let dep_planned := timeForServiceDay ds.1 dep.2
            let delay := (alget delay_by_trip dep.1).getD 0
            let dep_rt := dep_planned + delay
            if dep_rt < nowAbs ∨ dep_rt > windowEnd then none
            else
              let trip_route_label := (alget st.routes trip.route_id).getD trip.route_id
              if board_route_label ≠ "" ∧ board_route_label ≠ "All" ∧
                  board_route_label ≠ trip_route_label then none
              else
                some ⟨dep.1, trip_route_label, headsign,
                      routeMode (alget st.route_types trip.route_id),
                      dep_planned, dep_rt, delay⟩
          else none)

/-- `GtfsIndex.station_direction_board`: windowed departures at one
station, filtered by direction and route, sorted by realtime time. -/
def GtfsIndex.stationDirectionBoard (st : GtfsIndex) (now : LocalTime)
    (station_label direction_label board_route_label : String)
    (window_minutes : Int) (delay_by_trip : List (String × Int)) :
    List BoardEntry × GtfsIndex :=
  match truthy (alget st.stop_label_to_id station_label) with
  | none => ([], st)
  | some stop_id =>
    let windowEnd := now.abs + window_minutes * 60
    let r := st.activeForDays [now.date.pred, now.date, now.date.succ]
    let entries := ((alget st.departures_by_stop stop_id).getD []).flatMap
      (boardEntriesFor st now.abs windowEnd direction_label board_route_label
        delay_by_trip r.1)
    (List.insertionSort boardLe entries, r.2)

/-! ### Route O/D query (`GtfsIndex.upcoming_od_do`) -/

/-- One record of `upcoming_od_do`. -/
structure OdRecord where
  trip_id : String
  route : String
  direction : String
  from_stop : String
  to_stop : String
  departure_planned : Int
  departure_rt : Int
  arrival_planned : Int
  arrival_rt : Int
  delay_seconds : Int
deriving DecidableEq

/-- Sort key order for O/D records: realtime departure ascending. -/
def odLe (a b : OdRecord) : Prop := a.departure_rt ≤ b.departure_rt

instance : DecidableRel odLe := fun a b => Int.decLe a.departure_rt b.departure_rt

instance : IsTotal OdRecord odLe := ⟨fun a b => Int.le_total a.departure_rt b.departure_rt⟩

instance : IsTrans OdRecord odLe := ⟨fun _ _ _ => Int.le_trans⟩

/-- The dedup key `(trip_id, departure_rt)`. -/
def odKey (r : OdRecord) : String × Int := (r.trip_id, r.departure_rt)

/-- The dedup loop of `upcoming_od_do` / `upcoming_between_stop_names`:
drop records whose `(trip_id, departure_rt)` key was already seen. -/
def dedupGo (seen : List (String × Int)) : List OdRecord → List OdRecord
  | [] => []
  | x :: xs =>
    if odKey x ∈ seen then dedupGo seen xs
    else x :: dedupGo (odKey x :: seen) xs

/-- The O/D records contributed by one trip of `trips_by_route[route_id]`. -/
def odRecordsFor (st : GtfsIndex) (nowAbs : Int)
    (route_label direction_label from_stop_label to_stop_label : String)
    (from_stop to_stop : String) (delay_by_trip : List (String × Int))
    (active : List (Date × Finset String)) (trip_id : String) :
    List OdRecord :=
  let headsign :=
    match alget st.trips trip_id with
    | none => "Unknown"
    | some t => if t.trip_headsign = "" then "Unknown" else t.trip_headsign
  if direction_label ≠ "" ∧ direction_label ≠ "All" ∧ headsign ≠ direction_label then []
  else
    match truthy ((alget st.trips trip_id).map (·.service_id)) with
    | none => []
    | some service_id =>
      let stop_times := (alget st.stop_times_by_trip trip_id).getD []
      match stop_times.find? (fun s => s.stop_id == from_stop) with
      | none => []
      | some from_entry =>
        match stop_times.find? (fun s =>
            s.stop_id == to_stop && from_entry.stop_sequence < s.stop_sequence) with
        | none => []
        | some to_entry =>
          active.filterMap (fun ds =>
            if service_id ∈ ds.2 then
              let dep_planned := timeForServiceDay ds.1 from_entry.departure_secs
              let arr_planned := timeForServiceDay ds.1 to_entry.arrival_secs
              let delay := (alget delay_by_trip trip_id).getD 0
              let dep_rt := dep_planned + delay
              let arr_rt := arr_planned + delay
              if dep_rt < nowAbs then none
              else
                some ⟨trip_id, route_label, headsign, from_stop_label, to_stop_label,
                      dep_planned, dep_rt, arr_planned, arr_rt, delay⟩
            else none)

/-- `GtfsIndex.upcoming_od_do`: upcoming departures for one route,
direction and origin/destination pair, deduplicated by
`(trip_id, departure_rt)`, sorted by realtime departure, truncated. -/
def GtfsIndex.upcomingOdDo (st : GtfsIndex) (now : LocalTime)
    (route_label direction_label from_stop_label to_stop_label : String)
    (delay_by_trip : List (String × Int)) (limit : Nat) :
    List OdRecord × GtfsIndex :=
  match truthy (alget st.route_label_to_id route_label),
        truthy (alget st.stop_label_to_id from_stop_label),
        truthy (alget st.stop_label_to_id to_stop_label) with
  | some route_id, some from_stop, some to_stop =>
    let r := st.activeForDays [now.date.pred, now.date, now.date.succ]
    let results := ((alget st.trips_by_route route_id).getD []).flatMap
      (odRecordsFor st now.abs route_label direction_label from_stop_label
        to_stop_label from_stop to_stop delay_by_trip r.1)
    let dedup := dedupGo [] (List.insertionSort odLe results)
    (dedup.take limit, r.2)
  | _, _, _ => ([], st)

/-! ### Feed loading rows (`GtfsIndex._load`) -/

/-- A `routes.txt` row: the fields `_load` reads. -/
structure RouteRow where
  route_id : Option String
  route_short_name : Option String
  route_long_name : Option String
  route_type : Option String
deriving DecidableEq

/-- The `route_type` field handling in `_load`:
`int((row.get("route_type") or "3").strip())`, with a `ValueError`
falling back to `3`. -/
def parseRouteType (route_type : Option String) : Int :=
  match pyInt? (pyStrip (truthyD route_type "3")) with
  | some n => n
  | none => 3

/-- One iteration of the `routes.txt` loop in `_load`. -/
def loadRouteRow (st : GtfsIndex) (row : RouteRow) : GtfsIndex :=
  match truthy row.route_id with
  | none => st
  | some route_id =>
    let short := pyStrip (truthyD row.route_short_name "")
    let long := pyStrip (truthyD row.route_long_name "")
    let label0 := stripChars (short ++ " - " ++ long) [' ', '-']
    let label := if label0 = "" then route_id else label0
    ⟨alset st.routes route_id label,
      alset st.route_types route_id (parseRouteType row.route_type),
      alset st.route_label_to_id label route_id,
      st.stops, st.stop_label_to_id, st.trips, st.stop_times_by_trip,
      st.trips_by_route, st.departures_by_stop, st.calendar, st.calendar_dates,
      st.active_services_cache⟩

/-- `gtfs_index._hhmmss_to_seconds`: three colon-separated integer
fields to seconds, defaulting to `0` on any malformed value. -/
def hhmmssToSeconds (value : String) : Int :=
  match splitOnChar value (Char.ofNat 58) with
  | [hs, ms, ss] =>
    match pyInt? hs, pyInt? ms, pyInt? ss with
    | some h, some m, some s => h * 3600 + m * 60 + s
    | _, _, _ => 0
  | _ => 0

/-- Well-formedness of an HH:MM:SS string: exactly three
colon-separated fields, each parseable as an integer. -/
def hhmmssWellFormed (value : String) : Bool :=
  match splitOnChar value (Char.ofNat 58) with
  | [hs, ms, ss] => (pyInt? hs).isSome && (pyInt? ms).isSome && (pyInt? ss).isSome
  | _ => false

/-- A `stop_times.txt` row: the fields `_load` reads. -/
structure StopTimeRow where
  trip_id : Option String
  stop_id : Option String
  departure_time : Option String
  arrival_time : Option String
  stop_sequence : Option String
deriving DecidableEq

/-- `int(row.get("stop_sequence") or 0)`: absent or empty is `0`; a
present non-integer string raises `ValueError` (modelled as `none`). -/
def parseStopSequence (stop_sequence : Option String) : Option Int :=
  match truthy stop_sequence with
  | none => some 0
  | some s => pyInt? s

/-- One iteration of the `stop_times.txt` loop in `_load`; `none`
models the uncaught `ValueError` from `int(stop_sequence)`. -/
def loadStopTimeRow (st : GtfsIndex) (row : StopTimeRow) : Option GtfsIndex :=
  match truthy row.trip_id, truthy row.stop_id with
  | some trip_id, some stop_id =>
    let departure := hhmmssToSeconds (truthyD row.departure_time "")
    let arrival := hhmmssToSeconds (truthyD row.arrival_time "")
    match parseStopSequence row.stop_sequence with
    | none => none
    | some seq =>
      some ⟨st.routes, st.route_types, st.route_label_to_id, st.stops,
        st.stop_label_to_id, st.trips,
        alappend st.stop_times_by_trip trip_id ⟨stop_id, seq, departure, arrival⟩,
        st.trips_by_route,
        alappend st.departures_by_stop stop_id (trip_id, departure),
        st.calendar, st.calendar_dates, st.active_services_cache⟩
  | _, _ => some st

/-! ### Feed metadata (`gtfs_store.FeedMeta`) -/

/-- `gtfs_store.FeedMeta`: metadata for one cached static feed. -/
structure FeedMeta where
  version : String
  start_date : Option Date
  end_date : Option Date
  file_path : String
  source : String
  downloaded_at : String
deriving DecidableEq

/-- `FeedMeta.is_valid_for(day)`. -/
def FeedMeta.isValidFor (m : FeedMeta) (day : Date) : Bool :=
  if (match m.start_date with | some s => decide (Date.lt day s) | none => false) then false
  else if (match m.end_date with | some e => decide (Date.lt e day) | none => false) then false
  else true

/-- The dict produced by `FeedMeta.to_dict` / consumed by `from_dict`.
`date.isoformat()` and `date.fromisoformat` round-trip exactly, so the
serialized date strings are modelled as the dates themselves; string
fields may be absent (`from_dict` uses `.get` defaults). -/
structure FeedMetaDict where
  version : Option String
  start_date : Option Date
  end_date : Option Date
  file_path : Option String
  source : Option String
  downloaded_at : Option String
deriving DecidableEq

/-- `FeedMeta.to_dict`. -/
def FeedMeta.toDict (m : FeedMeta) : FeedMetaDict :=
  ⟨some m.version, m.start_date, m.end_date,
    some m.file_path, some m.source, some m.downloaded_at⟩

/-- `FeedMeta.from_dict`. -/
def FeedMeta.fromDict (raw : FeedMetaDict) : FeedMeta :=
  ⟨raw.version.getD "unknown", raw.start_date, raw.end_date,
    raw.file_path.getD "", raw.source.getD "local", raw.downloaded_at.getD ""⟩

/-! ### Listing fallback (`gtfs_store.refresh_previous_from_listing`) -/

/-- `gtfs_store._meta_rank`: `(int(version) if digits else -1,
start_date or date.min)`; `date.min` is 0001-01-01. -/
def metaRank (m : FeedMeta) : Int × Date :=
  ((if isPyDigits m.version then (digitsToNat m.version.toList : Int) else -1),
    m.start_date.getD ⟨1, 1, 1⟩)

/-- Python tuple comparison of `_meta_rank` values: lexicographic. -/
def rankLt (a b : Int × Date) : Prop :=
  a.1 < b.1 ∨ (a.1 = b.1 ∧ Date.lt a.2 b.2)

instance : DecidableRel rankLt := fun a b => by
  unfold rankLt; infer_instance

/-- `MAX_LISTING_CANDIDATES_TO_TRY` (`const.py`). -/
def MAX_LISTING_CANDIDATES_TO_TRY : Nat := 5

/-- The cross-page candidate accumulation of
`refresh_previous_from_listing`: per-page extracted candidate URL
lists (a failed page fetch contributes the empty list) deduplicated in
first-seen order. -/
def uniqueCandidates (pages : List (List String)) : List String :=
  pages.foldl (fun acc cands =>
    cands.foldl (fun acc c => if c ∈ acc then acc else acc ++ [c]) acc) []

/-- The candidates actually attempted: the first
`MAX_LISTING_CANDIDATES_TO_TRY` after skipping the first
(latest-equivalent) candidate. -/
def triedCandidates (pages : List (List String)) : List String :=
  ((uniqueCandidates pages).drop 1).take MAX_LISTING_CANDIDATES_TO_TRY

/-- The successfully downloaded candidates valid for `today`, in
attempt order; `download` models `refresh_from_url` (`none` is a
download failure). -/
def validDownloaded (pages : List (List String))
    (download : String → Option FeedMeta) (today : Date) : List FeedMeta :=
  (triedCandidates pages).filterMap (fun url =>
    match download url with
    | some meta => if meta.isValidFor today then some meta else none
    | none => none)

/-- Python `max(valid_metas, key=_meta_rank)`: first element of
maximal rank. -/
def pickBestMeta (m : FeedMeta) (rest : List FeedMeta) : FeedMeta :=
  rest.foldl (fun best x => if rankLt (metaRank best) (metaRank x) then x else best) m

/-- `GtfsStore.refresh_previous_from_listing` with network I/O at the
boundary: pages already fetched and href-extracted, downloads through
the `download` oracle. -/
def refreshPreviousFromListing (pages : List (List String))
    (download : String → Option FeedMeta) (today : Date) : Option FeedMeta :=
  let all_candidates := uniqueCandidates pages
  if all_candidates.length < 2 then none
  else
    match validDownloaded pages download today with
    | [] => none
    | m :: rest => some (pickBestMeta m rest)

/-! ### Realtime delay client (`realtime.RealtimeClient`) -/

/-- `REALTIME_DELAY_MAX_STALE_SECONDS` (`const.py`). -/
def REALTIME_DELAY_MAX_STALE_SECONDS : Int := 300

/-- One `stop_time_update` of a trip update: the optional departure
and arrival delays the client reads. -/
structure RtStopTimeUpdate where
  departure_delay : Option Int
  arrival_delay : Option Int
deriving DecidableEq

/-- One `trip_update` entity of the realtime feed. -/
structure RtTripUpdate where
  trip_id : String
  stop_time_updates : List RtStopTimeUpdate
  timestamp : Option Int
deriving DecidableEq

/-- One feed entity; `none` models an entity without `trip_update`. -/
structure RtEntity where
  trip_update : Option RtTripUpdate
deriving DecidableEq

/-- The `last_result` dict of the realtime client. -/
structure RtResult where
  status : String
  last_timestamp : Option Int
  trip_delays : List (String × Int)
  error : Option String
deriving DecidableEq

/-- The realtime client state. -/
structure RealtimeClient where
  last_success_utc : Option Int
  last_result : RtResult
deriving DecidableEq

/-- `RealtimeClient.__init__`: status starts as "stale". -/
def RealtimeClient.init : RealtimeClient :=
  ⟨none, ⟨"stale", none, [], none⟩⟩

/-- The per-trip delay extraction loop: first stop-time update carrying
a delay, departure preferred over arrival, default 0. -/
def firstDelay : List RtStopTimeUpdate → Int
  | [] => 0
  | u :: rest =>
    match u.departure_delay with
    | some d => d
    | none =>
      match u.arrival_delay with
      | some d => d
      | none => firstDelay rest

/-- The entity decoding loop of `refresh`: builds the trip-delay map
and the running `last_ts = max(last_ts or ts, ts)` (note the Python
truthiness: a stored `0` is replaced rather than compared). -/
def decodeEntities (entities : List RtEntity) : List (String × Int) × Option Int :=
  entities.foldl (fun acc ent =>
    match ent.trip_update with
    | none => acc
    | some tu =>
      if tu.trip_id = "" then acc
      else
        let delays := alset acc.1 tu.trip_id (firstDelay tu.stop_time_updates)
        match tu.timestamp with
        | none => (delays, acc.2)
        | some ts =>
          let prev := match acc.2 with
            | some t => if t = 0 then ts else t
            | none => ts
          (delays, some (max prev ts))) ([], none)

/-- `RealtimeClient.refresh`: `pb2_available` models the import guard
on `gtfs_realtime_pb2`; `outcome` is the fetched-and-decoded entity
list or the raised fetch/decode exception message. -/
def RealtimeClient.refresh (c : RealtimeClient) (pb2_available : Bool)
    (outcome : Except String (List RtEntity)) (now_utc : Int) : RealtimeClient :=
  if ¬ pb2_available then
    ⟨c.last_success_utc,
      ⟨"error", none, [], some "gtfs_realtime_pb2_unavailable"⟩⟩
  else
    match outcome with
    | .ok entities =>
      let d := decodeEntities entities
      let last_iso := match d.2 with
        | some t => if t = 0 then none else some t
        | none => none
      ⟨some now_utc, ⟨"ok", last_iso, d.1, none⟩⟩
    | .error err =>
      let keep := match c.last_success_utc with
        | none => []
        | some t =>
          if now_utc - t > REALTIME_DELAY_MAX_STALE_SECONDS then []
          else c.last_result.trip_delays
      ⟨c.last_success_utc,
        ⟨"error", c.last_result.last_timestamp, keep, some err⟩⟩

/-! ### Concrete sample data used by witnesses -/

/-- A freshly constructed index before any rows were loaded. -/
def emptyIndex : GtfsIndex := ⟨[], [], [], [], [], [], [], [], [], [], [], []⟩

/-- A calendar row active on every weekday with no date range. -/
def calAllDays : CalRow :=
  ⟨none, none, some "1", some "1", some "1", some "1", some "1", some "1", some "1"⟩

/-- A one-route, one-trip, two-stop index. -/
def sampleIndex : GtfsIndex :=
  ⟨[("r1", "1 - Line")], [("r1", 0)], [("1 - Line", "r1")],
    [("s1", "X"), ("s2", "Y")], [("X [s1]", "s1"), ("Y [s2]", "s2")],
    [("t1", ⟨"r1", "svc", "Centar"⟩)],
    [("t1", [⟨"s1", 1, 28800, 28800⟩, ⟨"s2", 2, 29400, 29400⟩])],
    [("r1", ["t1"])],
    [("s1", [("t1", 28800)]), ("s2", [("t1", 29400)])],
    [("svc", calAllDays)], [], []⟩

/-- 2025-01-06 (a Monday) at 07:55:00 local time. -/
def sampleNow : LocalTime := ⟨⟨2025, 1, 6⟩, 28500⟩

/-- A cached feed valid through 2025, numeric version 10. -/
def sampleMetaA : FeedMeta :=
  ⟨"10", some ⟨2025, 1, 1⟩, some ⟨2025, 12, 31⟩, "/f/10.zip", "listing_previous", ""⟩

/-- A cached feed valid through 2025, numeric version 11. -/
def sampleMetaB : FeedMeta :=
  ⟨"11", some ⟨2025, 1, 2⟩, some ⟨2025, 12, 31⟩, "/f/11.zip", "listing_previous", ""⟩

/-- A download oracle: url "a" yields version 10, "b" yields 11. -/
def sampleDownload : String → Option FeedMeta := fun u =>
  if u = "a" then some sampleMetaA else if u = "b" then some sampleMetaB else none

end ZagrebTransit

namespace ZagrebTransit

/-! ### Small algebraic lemmas about the helpers -/

/-- `alset` then `alget` at the same key reads back the written value. -/
theorem alget_alset_self {κ α : Type} [BEq κ] [LawfulBEq κ]
    (l : List (κ × α)) (k : κ) (v : α) : alget (alset l k v) k = some v := by
  induction l with
  | nil => simp [alset, alget]
  | cons p rest ih =>
    by_cases h : p.1 == k
    · obtain ⟨k', v'⟩ := p
      simp only at h
      simp [alset, h, alget, List.find?]
    · obtain ⟨k', v'⟩ := p
      simp only at h
      simp only [alset, h, if_false, Bool.false_eq_true]
      simpa [alget, List.find?, h] using ih

/-- `alappend` then `alget` at the same key reads back the appended list. -/
theorem alget_alappend_self {κ α : Type} [BEq κ] [LawfulBEq κ]
    (l : List (κ × List α)) (k : κ) (x : α) :
    alget (alappend l k x) k = some ((alget l k).getD [] ++ [x]) := by
  induction l with
  | nil => simp [alappend, alget]
  | cons p rest ih =>
    by_cases h : p.1 == k
    · obtain ⟨k', xs⟩ := p
      simp only at h
      simp [alappend, h, alget, List.find?]
    · obtain ⟨k', xs⟩ := p
      simp only at h
      simp only [alappend, h, if_false, Bool.false_eq_true]
      simpa [alget, List.find?, h] using ih

/-- Strict date order is the negation of reversed non-strict order. -/
theorem Date.not_lt_iff {a b : Date} : ¬ Date.lt a b ↔ Date.le b a := by
  obtain ⟨y1, m1, d1⟩ := a
  obtain ⟨y2, m2, d2⟩ := b
  simp only [Date.lt, Date.le, Date.mk.injEq]
  omega

/-- A malformed HH:MM:SS string parses to 0 seconds. -/
theorem hhmmss_malformed_eq_zero {v : String}
    (h : hhmmssWellFormed v = false) : hhmmssToSeconds v = 0 := by
  unfold hhmmssWellFormed at h
  unfold hhmmssToSeconds
  rcases hs : splitOnChar v (Char.ofNat 58) with _ | ⟨a, _ | ⟨b, _ | ⟨c, _ | d⟩⟩⟩ <;>
    (rw [hs] at h; try rfl)
  rcases ha : pyInt? a with _ | x <;> rcases hb : pyInt? b with _ | y <;>
    rcases hc : pyInt? c with _ | z <;> simp [ha, hb, hc] at h ⊢

/-! ### Claim theorems -/

/-- C7: the route mode classification maps route_type 0 to "tram",
3 to "bus", 900 to "tram", 715 to "bus", and 5 to "other". -/
theorem c7_route_mode_table :
    routeMode (some 0) = "tram" ∧ routeMode (some 3) = "bus" ∧
    routeMode (some 900) = "tram" ∧ routeMode (some 715) = "bus" ∧
    routeMode (some 5) = "other" := by
  decide

/-- C2 counterexample: a route row with `route_type = "abc"` (numeric
parse failure) is loaded with `route_types[route_id] = 3`, so the mode
classifies as "bus", not "other" — the field is not degraded to
missing. -/
theorem c2_counterexample :
    alget (loadRouteRow emptyIndex
        ⟨some "r9", some "9", some "Line", some "abc"⟩).route_types "r9" = some 3 ∧
    routeMode (alget (loadRouteRow emptyIndex
        ⟨some "r9", some "9", some "Line", some "abc"⟩).route_types "r9") = "bus" ∧
    routeMode (alget (loadRouteRow emptyIndex
        ⟨some "r9", some "9", some "Line", some "abc"⟩).route_types "r9") ≠ "other" := by
  decide

/-- C2 (amended): when a route row's route_type field is absent or
fails numeric parsing, the load degrades that single field to the
default `3` (so the route's mode classifies as "bus") rather than
aborting the whole load. -/
theorem c2_route_type_defaults_to_bus (st : GtfsIndex) (row : RouteRow)
    (route_id : String) (hid : truthy row.route_id = some route_id)
    (hbad : match truthy row.route_type with
            | none => True
            | some s => pyInt? (pyStrip s) = none) :
    alget (loadRouteRow st row).route_types route_id = some 3 ∧
    routeMode (alget (loadRouteRow st row).route_types route_id) = "bus" := by
  have h3 : parseRouteType row.route_type = 3 := by
    unfold parseRouteType truthyD
    rcases ht : truthy row.route_type with _ | s
    · decide
    · rw [ht] at hbad
      have hb : pyInt? (pyStrip s) = none := hbad
      simp only [Option.getD_some]
      rw [hb]
  have : alget (loadRouteRow st row).route_types route_id =
      some (parseRouteType row.route_type) := by
    unfold loadRouteRow
    rw [hid]
    exact alget_alset_self ..
  rw [h3] at this
  exact ⟨this, by rw [this]; decide⟩

/-- C2 witness: a concrete route row with an absent route_type. -/
theorem c2_witness :
    alget (loadRouteRow emptyIndex ⟨some "r7", none, none, none⟩).route_types "r7" =
        some 3 ∧
    routeMode (alget (loadRouteRow emptyIndex
        ⟨some "r7", none, none, none⟩).route_types "r7") = "bus" :=
  c2_route_type_defaults_to_bus emptyIndex ⟨some "r7", none, none, none⟩ "r7"
    (by decide) trivial

/-- C6: a FeedMeta rebuilt by `from_dict(to_dict(m))` gives
`is_valid_for` equal to the original on every date, and
`is_valid_for(d)` holds iff the start date is absent or at most `d`
and the end date is absent or at least `d`. -/
theorem c6_feedmeta_roundtrip_validity (m : FeedMeta) (day : Date) :
    (FeedMeta.fromDict (FeedMeta.toDict m)).isValidFor day = m.isValidFor day ∧
    (m.isValidFor day = true ↔
      ((∀ s, m.start_date = some s → Date.le s day) ∧
       (∀ e, m.end_date = some e → Date.le day e))) := by
  constructor
  · rfl
  · unfold FeedMeta.isValidFor
    rcases m.start_date with _ | s <;> rcases m.end_date with _ | e <;>
      simp [Date.not_lt_iff]

/-- C9: after every completed call to `refresh` — success, decoder
unavailable, or fetch/decode failure — the reported status is "ok" or
"error"; the status is "stale" only in the initial unfetched state. -/
theorem c9_status_never_stale_after_refresh (c : RealtimeClient) (pb2 : Bool)
    (outcome : Except String (List RtEntity)) (now_utc : Int) :
    RealtimeClient.init.last_result.status = "stale" ∧
    ((c.refresh pb2 outcome now_utc).last_result.status = "ok" ∨
     (c.refresh pb2 outcome now_utc).last_result.status = "error") := by
  refine ⟨rfl, ?_⟩
  unfold RealtimeClient.refresh
  rcases pb2 with _ | _
  · simp
  · rcases outcome with err | entities <;> simp

/-- C5: on any realtime fetch/decode failure, the client keeps the
previous trip-delay map unchanged when the last successful fetch was
at most 300 seconds ago, and otherwise (or when there has never been a
successful fetch) clears it; the status is "error" in both cases. -/
theorem c5_failure_keeps_delays_within_staleness (c : RealtimeClient)
    (err : String) (now_utc : Int) :
    (c.refresh true (.error err) now_utc).last_result.status = "error" ∧
    (c.last_success_utc = none →
      (c.refresh true (.error err) now_utc).last_result.trip_delays = []) ∧
    (∀ t, c.last_success_utc = some t →
      (now_utc - t ≤ 300 →
        (c.refresh true (.error err) now_utc).last_result.trip_delays =
          c.last_result.trip_delays) ∧
      (now_utc - t > 300 →
        (c.refresh true (.error err) now_utc).last_result.trip_delays = [])) := by
  have hs : (c.refresh true (.error err) now_utc).last_result =
      ⟨"error", c.last_result.last_timestamp,
        (match c.last_success_utc with
         | none => []
         | some t => if now_utc - t > 300 then [] else c.last_result.trip_delays),
        some err⟩ := by
    unfold RealtimeClient.refresh REALTIME_DELAY_MAX_STALE_SECONDS
    simp
  refine ⟨by rw [hs], ?_, ?_⟩
  · intro h
    rw [hs]
    simp [h]
  · intro t ht
    constructor
    · intro hle
      rw [hs]
      simp only [ht]
      rw [if_neg (by omega)]
    · intro hgt
      rw [hs]
      simp only [ht]
      rw [if_pos (by omega)]

/-- C5 witness: a failure 100 seconds after a successful fetch keeps
the delay map; the status is "error". -/
theorem c5_witness :
    (RealtimeClient.refresh ⟨some 1000, ⟨"ok", none, [("t1", 60)], none⟩⟩
        true (.error "boom") 1100).last_result.status = "error" ∧
    (RealtimeClient.refresh ⟨some 1000, ⟨"ok", none, [("t1", 60)], none⟩⟩
        true (.error "boom") 1100).last_result.trip_delays = [("t1", 60)] := by
  have h := c5_failure_keeps_delays_within_staleness
    ⟨some 1000, ⟨"ok", none, [("t1", 60)], none⟩⟩ "boom" 1100
  exact ⟨h.1, (h.2.2 1000 rfl).1 (by decide)⟩

/-- C8: `active_services_for_day` is idempotent — for every date,
calling it again on the updated index yields the same set, so the
memoization cache (including its bounded eviction) never changes the
result of a repeated call. -/
theorem c8_active_services_idempotent (st : GtfsIndex) (day : Date) :
    ((st.activeServicesForDay day).2.activeServicesForDay day).1 =
      (st.activeServicesForDay day).1 := by
  unfold GtfsIndex.activeServicesForDay
  rcases hfind : st.active_services_cache.find? (fun p => p.1 == day) with _ | p
  · simp only [hfind]
    set services := computeActiveServices st.calendar st.calendar_dates day with hsv
    set cache1 := st.active_services_cache ++ [(day, services)] with hc1
    have hfind1 : cache1.find? (fun p => p.1 == day) = some (day, services) := by
      rw [hc1, List.find?_append, hfind]
      simp
    have hcal : (st.withCache (evictCache cache1)).calendar = st.calendar := rfl
    have hcald : (st.withCache (evictCache cache1)).calendar_dates =
        st.calendar_dates := rfl
    have hcache : (st.withCache (evictCache cache1)).active_services_cache =
        evictCache cache1 := rfl
    rcases hfind2 : (evictCache cache1).find? (fun p => p.1 == day) with _ | q
    · simp only [hcache, hfind2, hcal, hcald]
    · have hq2 : q.2 = services := by
        have hmem := List.mem_of_find?_eq_some hfind2
        have hpq := List.find?_some hfind2
        have hqday : q.1 = day := by simpa using hpq
        unfold evictCache at hmem
        by_cases hlen : cache1.length > 8
        · rw [if_pos hlen] at hmem
          rw [List.mem_map] at hmem
          obtain ⟨k, _, hk⟩ := hmem
          have hk1 : k = q.1 := congrArg Prod.fst hk
          have hk2 : (alget cache1 k).getD ∅ = q.2 := congrArg Prod.snd hk
          rw [hk1, hqday] at hk2
          rw [← hk2]
          unfold alget
          rw [hfind1]
          rfl
        · have hev : evictCache cache1 = cache1 := by
            unfold evictCache
            rw [if_neg hlen]
          rw [hev, hfind1] at hfind2
          exact (congrArg Prod.snd (Option.some.inj hfind2)).symm
      simp only [hcache, hfind2, hq2]
  · simp only [hfind]

/-- Every board entry produced for one departure pair lies inside the
realtime window `[nowAbs, windowEnd]`. -/
theorem rt_bounds_of_mem_boardEntriesFor {st : GtfsIndex} {nowAbs windowEnd : Int}
    {direction_label board_route_label : String}
    {delay_by_trip : List (String × Int)} {active : List (Date × Finset String)}
    {dep : String × Int} {e : BoardEntry}
    (h : e ∈ boardEntriesFor st nowAbs windowEnd direction_label
      board_route_label delay_by_trip active dep) :
    nowAbs ≤ e.rt ∧ e.rt ≤ windowEnd := by
  unfold boardEntriesFor at h
  rcases halget : alget st.trips dep.1 with _ | trip
  · rw [halget] at h
    simp at h
  · rw [halget] at h
    dsimp only at h
    by_cases h1 : trip.service_id = ""
    · rw [if_pos h1] at h
      simp at h
    · rw [if_neg h1] at h
      by_cases h2 : direction_label ≠ "" ∧ direction_label ≠ "All" ∧
          (if trip.trip_headsign = "" then "Unknown" else trip.trip_headsign) ≠
            direction_label
      · rw [if_pos h2] at h
        simp at h
      · rw [if_neg h2] at h
        rw [List.mem_filterMap] at h
        obtain ⟨ds, _, hds⟩ := h
        split_ifs at hds
        all_goals simp only [Option.some.injEq] at hds
        all_goals first
          | exact absurd hds (by simp)
          | (subst hds; exact ⟨by dsimp only; omega, by dsimp only; omega⟩)

/-- C1: every record returned by `station_direction_board` has a
realtime time `rt` with `now ≤ rt ≤ now + window_minutes` — departures
strictly before now are excluded and the window end is inclusive. -/
theorem c1_station_board_window (st : GtfsIndex) (now : LocalTime)
    (station_label direction_label board_route_label : String)
    (window_minutes : Int) (delay_by_trip : List (String × Int))
    (_hw : 0 ≤ window_minutes) :
    ∀ e ∈ (st.stationDirectionBoard now station_label direction_label
        board_route_label window_minutes delay_by_trip).1,
      now.abs ≤ e.rt ∧ e.rt ≤ now.abs + window_minutes * 60 := by
  intro e he
  unfold GtfsIndex.stationDirectionBoard at he
  rcases hsid : truthy (alget st.stop_label_to_id station_label) with _ | stop_id
  · rw [hsid] at he
    simp at he
  · rw [hsid] at he
    simp only [] at he
    have he2 : e ∈ ((alget st.departures_by_stop stop_id).getD []).flatMap
        (boardEntriesFor st now.abs (now.abs + window_minutes * 60)
          direction_label board_route_label delay_by_trip
          (st.activeForDays [now.date.pred, now.date, now.date.succ]).1) :=
      (List.perm_insertionSort boardLe _).mem_iff.mp he
    rw [List.mem_flatMap] at he2
    obtain ⟨dep, _, hdep⟩ := he2
    exact rt_bounds_of_mem_boardEntriesFor hdep

/-- C1 witness: a concrete one-trip board at 07:55 with a 30-minute
window contains the 08:00 departure, inside the window. -/
theorem c1_witness :
    sampleNow.abs ≤ (63871833600 : Int) ∧
      (63871833600 : Int) ≤ sampleNow.abs + 30 * 60 := by
  have h := c1_station_board_window sampleIndex sampleNow
    "X [s1]" "All" "All" 30 [] (by decide)
  have hm : (⟨"t1", "1 - Line", "Centar", "tram", 63871833600, 63871833600, 0⟩ :
      BoardEntry) ∈ (sampleIndex.stationDirectionBoard sampleNow
        "X [s1]" "All" "All" 30 []).1 := by decide
  exact h _ hm

/-- The dedup loop returns a sublist of its input. -/
theorem dedupGo_sublist (seen : List (String × Int)) (l : List OdRecord) :
    List.Sublist (dedupGo seen l) l := by
  induction l generalizing seen with
  | nil => simp [dedupGo]
  | cons x xs ih =>
    unfold dedupGo
    split_ifs
    · exact (ih seen).cons x
    · exact (ih _).cons₂ x

/-- Every key of the dedup output was absent from the seen set. -/
theorem key_not_seen_of_mem_dedupGo (seen : List (String × Int))
    (l : List OdRecord) :
    ∀ k ∈ (dedupGo seen l).map odKey, k ∉ seen := by
  induction l generalizing seen with
  | nil => simp [dedupGo]
  | cons x xs ih =>
    intro k hk
    unfold dedupGo at hk
    split_ifs at hk with hx
    · exact ih seen k hk
    · rw [List.map_cons, List.mem_cons] at hk
      rcases hk with rfl | hk
      · exact hx
      · intro hs
        exact ih (odKey x :: seen) k hk (List.mem_cons_of_mem _ hs)

/-- The dedup output has pairwise-distinct `(trip_id, departure_rt)` keys. -/
theorem nodup_keys_dedupGo (seen : List (String × Int)) (l : List OdRecord) :
    ((dedupGo seen l).map odKey).Nodup := by
  induction l generalizing seen with
  | nil => simp [dedupGo]
  | cons x xs ih =>
    unfold dedupGo
    split_ifs with hx
    · exact ih seen
    · rw [List.map_cons]
      refine List.Nodup.cons ?_ (ih _)
      intro hmem
      exact key_not_seen_of_mem_dedupGo _ _ _ hmem (List.mem_cons_self _ _)

/-- C3: `upcoming_od_do` returns no two records with identical
`(trip_id, realtime_departure)`, sorted ascending by realtime
departure, with at most `limit` records. -/
theorem c3_od_dedup_sort_limit (st : GtfsIndex) (now : LocalTime)
    (route_label direction_label from_stop_label to_stop_label : String)
    (delay_by_trip : List (String × Int)) (limit : Nat) :
    (((st.upcomingOdDo now route_label direction_label from_stop_label
        to_stop_label delay_by_trip limit).1.map odKey).Nodup) ∧
    ((st.upcomingOdDo now route_label direction_label from_stop_label
        to_stop_label delay_by_trip limit).1.Sorted odLe) ∧
    ((st.upcomingOdDo now route_label direction_label from_stop_label
        to_stop_label delay_by_trip limit).1.length ≤ limit) := by
  unfold GtfsIndex.upcomingOdDo
  rcases truthy (alget st.route_label_to_id route_label) with _ | route_id <;>
    rcases truthy (alget st.stop_label_to_id from_stop_label) with _ | from_stop <;>
    rcases truthy (alget st.stop_label_to_id to_stop_label) with _ | to_stop <;>
    try exact ⟨List.nodup_nil, List.sorted_nil, Nat.zero_le _⟩
  dsimp only
  set sorted := List.insertionSort odLe
    (((alget st.trips_by_route route_id).getD []).flatMap
      (odRecordsFor st now.abs route_label direction_label from_stop_label
        to_stop_label from_stop to_stop delay_by_trip
        (st.activeForDays [now.date.pred, now.date, now.date.succ]).1)) with hsorted
  refine ⟨?_, ?_, ?_⟩
  · rw [List.map_take]
    exact List.Nodup.sublist (List.take_sublist _ _) (nodup_keys_dedupGo [] sorted)
  · have hs : sorted.Pairwise odLe := List.sorted_insertionSort odLe _
    exact List.Pairwise.sublist
      ((List.take_sublist _ _).trans (dedupGo_sublist [] sorted)) hs
  · exact List.length_take_le limit (dedupGo [] sorted)

/-- The rank order is transitive. -/
theorem rankLt_trans {a b c : Int × Date} (hab : rankLt a b) (hbc : rankLt b c) :
    rankLt a c := by
  obtain ⟨i1, y1, m1, d1⟩ := a
  obtain ⟨i2, y2, m2, d2⟩ := b
  obtain ⟨i3, y3, m3, d3⟩ := c
  simp only [rankLt, Date.lt] at *
  omega

/-- The rank order is trichotomous. -/
theorem rankLt_trichotomy (a b : Int × Date) :
    rankLt a b ∨ a = b ∨ rankLt b a := by
  obtain ⟨i1, y1, m1, d1⟩ := a
  obtain ⟨i2, y2, m2, d2⟩ := b
  simp only [rankLt, Date.lt, Prod.mk.injEq, Date.mk.injEq]
  omega

/-- The rank order is irreflexive. -/
theorem rankLt_irrefl (a : Int × Date) : ¬ rankLt a a := by
  obtain ⟨i, y, m, d⟩ := a
  simp only [rankLt, Date.lt]
  omega

/-- `max(metas, key=_meta_rank)` returns a member of the list. -/
theorem pickBestMeta_mem (m : FeedMeta) (rest : List FeedMeta) :
    pickBestMeta m rest ∈ m :: rest := by
  induction rest generalizing m with
  | nil => simp [pickBestMeta]
  | cons x xs ih =>
    unfold pickBestMeta at ih ⊢
    rw [List.foldl_cons]
    by_cases hmx : rankLt (metaRank m) (metaRank x)
    · rw [if_pos hmx]
      rcases List.mem_cons.mp (ih x) with h | h
      · rw [h]
        simp
      · simp [h]
    · rw [if_neg hmx]
      rcases List.mem_cons.mp (ih m) with h | h
      · rw [h]
        simp
      · simp [h]

/-- No list member ranks strictly above `max(metas, key=_meta_rank)`. -/
theorem pickBestMeta_max (m : FeedMeta) (rest : List FeedMeta) :
    ∀ y ∈ m :: rest, ¬ rankLt (metaRank (pickBestMeta m rest)) (metaRank y) := by
  induction rest generalizing m with
  | nil =>
    intro y hy
    rw [List.mem_singleton] at hy
    subst hy
    unfold pickBestMeta
    rw [List.foldl_nil]
    exact rankLt_irrefl _
  | cons x xs ih =>
    intro y hy
    unfold pickBestMeta at ih ⊢
    rw [List.foldl_cons]
    have hstep := ih (if rankLt (metaRank m) (metaRank x) then x else m)
    rcases List.mem_cons.mp hy with h | hy2
    · subst h
      by_cases hmx : rankLt (metaRank y) (metaRank x)
      · rw [if_pos hmx] at hstep ⊢
        intro hc
        exact hstep x (List.mem_cons_self _ _) (rankLt_trans hc hmx)
      · rw [if_neg hmx] at hstep ⊢
        exact hstep y (List.mem_cons_self _ _)
    · rcases List.mem_cons.mp hy2 with h | hy3
      · subst h
        by_cases hmx : rankLt (metaRank m) (metaRank y)
        · rw [if_pos hmx] at hstep ⊢
          exact hstep y (List.mem_cons_self _ _)
        · rw [if_neg hmx] at hstep ⊢
          intro hc
          rcases rankLt_trichotomy (metaRank y) (metaRank m) with h | h | h
          · exact hstep m (List.mem_cons_self _ _) (rankLt_trans hc h)
          · rw [h] at hc
            exact hstep m (List.mem_cons_self _ _) hc
          · exact hmx h
      · exact hstep y (List.mem_cons_of_mem _ hy3)

/-- C4: with fewer than 2 unique listing candidates the fallback
returns null; otherwise, skipping the first (latest-equivalent)
candidate, it returns a downloaded candidate valid for today of
maximal (numeric version, start date) rank, or null exactly when no
downloaded candidate is valid. -/
theorem c4_listing_fallback (pages : List (List String))
    (download : String → Option FeedMeta) (today : Date) :
    ((uniqueCandidates pages).length < 2 →
      refreshPreviousFromListing pages download today = none) ∧
    (2 ≤ (uniqueCandidates pages).length →
      ((validDownloaded pages download today = [] →
          refreshPreviousFromListing pages download today = none) ∧
       (validDownloaded pages download today ≠ [] →
          refreshPreviousFromListing pages download today ≠ none) ∧
       (∀ m, refreshPreviousFromListing pages download today = some m →
          m ∈ validDownloaded pages download today ∧
          ∀ m2 ∈ validDownloaded pages download today,
            ¬ rankLt (metaRank m) (metaRank m2)))) := by
  unfold refreshPreviousFromListing
  constructor
  · intro h
    rw [if_pos h]
  · intro h
    rw [if_neg (by omega)]
    refine ⟨?_, ?_, ?_⟩
    · intro hvd
      rw [hvd]
    · intro hvd
      rcases hv : validDownloaded pages download today with _ | ⟨m, rest⟩
      · exact absurd hv hvd
      · simp
    · intro m hm
      rcases hv : validDownloaded pages download today with _ | ⟨m0, rest⟩
      · rw [hv] at hm
        simp at hm
      · rw [hv] at hm
        obtain rfl : pickBestMeta m0 rest = m := Option.some.inj hm
        exact ⟨hv ▸ pickBestMeta_mem m0 rest,
          fun m2 hm2 => pickBestMeta_max m0 rest m2 (hv ▸ hm2)⟩

/-- C4 witness: three unique candidates, two of which download to
feeds valid for 2025-06-01; the fallback returns a feed. -/
theorem c4_witness :
    refreshPreviousFromListing [["latest", "a", "b"]] sampleDownload
      ⟨2025, 6, 1⟩ ≠ none := by
  have h := c4_listing_fallback [["latest", "a", "b"]] sampleDownload ⟨2025, 6, 1⟩
  exact (h.2 (by decide)).2.1 (by decide)

/-- C10: a stop_times row with malformed departure or arrival time is
not skipped — it is indexed with that time parsed as 0 seconds
(anchored at midnight of the service day) and appears in both the
per-trip and the per-stop structures. -/
theorem c10_malformed_time_still_indexed (st : GtfsIndex) (row : StopTimeRow)
    (trip_id stop_id : String) (seq : Int)
    (h1 : truthy row.trip_id = some trip_id)
    (h2 : truthy row.stop_id = some stop_id)
    (h3 : parseStopSequence row.stop_sequence = some seq) :
    ∃ st2, loadStopTimeRow st row = some st2 ∧
      alget st2.stop_times_by_trip trip_id =
        some ((alget st.stop_times_by_trip trip_id).getD [] ++
          [⟨stop_id, seq, hhmmssToSeconds (truthyD row.departure_time ""),
            hhmmssToSeconds (truthyD row.arrival_time "")⟩]) ∧
      alget st2.departures_by_stop stop_id =
        some ((alget st.departures_by_stop stop_id).getD [] ++
          [(trip_id, hhmmssToSeconds (truthyD row.departure_time ""))]) ∧
      (hhmmssWellFormed (truthyD row.departure_time "") = false →
        hhmmssToSeconds (truthyD row.departure_time "") = 0) ∧
      (hhmmssWellFormed (truthyD row.arrival_time "") = false →
        hhmmssToSeconds (truthyD row.arrival_time "") = 0) ∧
      (∀ day, timeForServiceDay day 0 = (day.toOrdinal : Int) * 86400) := by
  have hld : loadStopTimeRow st row = some
      ⟨st.routes, st.route_types, st.route_label_to_id, st.stops,
        st.stop_label_to_id, st.trips,
        alappend st.stop_times_by_trip trip_id
          ⟨stop_id, seq, hhmmssToSeconds (truthyD row.departure_time ""),
            hhmmssToSeconds (truthyD row.arrival_time "")⟩,
        st.trips_by_route,
        alappend st.departures_by_stop stop_id
          (trip_id, hhmmssToSeconds (truthyD row.departure_time "")),
        st.calendar, st.calendar_dates, st.active_services_cache⟩ := by
    unfold loadStopTimeRow
    rw [h1, h2, h3]
  exact ⟨_, hld, alget_alappend_self .., alget_alappend_self ..,
    fun h => hhmmss_malformed_eq_zero h, fun h => hhmmss_malformed_eq_zero h,
    fun day => by unfold timeForServiceDay; ring⟩

/-- C10 witness: the row `("t1", "s1", "8:00", "x", "3")` has both time
fields malformed; it is still indexed, with both times 0. -/
theorem c10_witness :
    ((loadStopTimeRow emptyIndex
        ⟨some "t1", some "s1", some "8:00", some "x", some "3"⟩).map
      (fun s => (alget s.stop_times_by_trip "t1",
                 alget s.departures_by_stop "s1"))) =
      some (some [⟨"s1", 3, 0, 0⟩], some [("t1", 0)]) := by
  obtain ⟨st2, hld, htrip, hstop, _, _, _⟩ :=
    c10_malformed_time_still_indexed emptyIndex
      ⟨some "t1", some "s1", some "8:00", some "x", some "3"⟩
      "t1" "s1" 3 (by decide) (by decide) (by decide)
  rw [hld]
  dsimp only [Option.map]
  rw [htrip, hstop]
  decide

end ZagrebTransit
